import Mathlib

/-!
Verification of the core byte-shift codec and boundary logic of
`obsource.py` (Obsource v0.1), a utility that obscures/deobscures Python
source files by adding/subtracting a seed to each UTF-8 byte modulo 256.

Embedding conventions:
* Text (a Python `str` of well-formed Unicode) is a `List Nat` of code
  points satisfying `IsScalar` (no surrogates, below 0x110000).
* Byte sequences (`bytes`) are `List Nat` with entries in [0,255].
* The seed is an `Int`; Lean's `Int.emod` by the positive constant 256
  agrees with Python's `%`, which for a positive modulus always returns a
  non-negative result.
* `str.encode('utf-8')` / `bytes.decode('utf-8')` are embedded by
  `utf8Encode` / `utf8Decode`; the decoder accepts exactly the well-formed
  UTF-8 sequences (rejecting overlong forms, surrogates, and values above
  0x10FFFF), as CPython's strict UTF-8 codec does, and a `none` result
  models the raised `UnicodeDecodeError`.
-/

set_option maxRecDepth 8192

namespace Obsource

/-- A Unicode scalar value: encodable code point (what a well-formed
Python `str` element that `encode('utf-8')` accepts must be). -/
def IsScalar (c : Nat) : Prop := c < 0x110000 ∧ (c < 0xD800 ∨ 0xE000 ≤ c)

instance (c : Nat) : Decidable (IsScalar c) := by
  unfold IsScalar; infer_instance

/-- UTF-8 encoding of a single scalar value (the standard 1–4 byte form,
as produced by CPython's `str.encode('utf-8')`). -/
def utf8EncodeChar (c : Nat) : List Nat :=
  if c < 0x80 then [c]
  else if c < 0x800 then [0xC0 + c / 64, 0x80 + c % 64]
  else if c < 0x10000 then
    [0xE0 + c / 4096, 0x80 + c / 64 % 64, 0x80 + c % 64]
  else
    [0xF0 + c / 262144, 0x80 + c / 4096 % 64, 0x80 + c / 64 % 64,
     0x80 + c % 64]

/-- UTF-8 encoding of a text, embedding `str.encode('utf-8')`. -/
def utf8Encode (s : List Nat) : List Nat := s.flatMap utf8EncodeChar

/-- Is `b` a UTF-8 continuation byte (10xxxxxx)? -/
def IsCont (b : Nat) : Prop := 0x80 ≤ b ∧ b < 0xC0

instance (b : Nat) : Decidable (IsCont b) := by
  unfold IsCont; infer_instance

/-- Strict UTF-8 decoding, embedding `bytes.decode('utf-8')`:
accepts exactly the well-formed UTF-8 byte sequences (continuation bytes
in [0x80,0xC0), no overlong forms, no surrogates, maximum 0x10FFFF) and
returns `none` where CPython raises `UnicodeDecodeError`. -/
def utf8Decode : List Nat → Option (List Nat)
  | [] => some []
  | b0 :: t =>
    if b0 < 0x80 then
      (utf8Decode t).map (fun cs => b0 :: cs)
    else if b0 < 0xC0 then none
    else
      match t with
      | [] => none
      | b1 :: t1 =>
        if b0 < 0xE0 then
          if IsCont b1 then
            if 0x80 ≤ (b0 - 0xC0) * 64 + (b1 - 0x80) then
              (utf8Decode t1).map (fun cs => ((b0 - 0xC0) * 64 + (b1 - 0x80)) :: cs)
            else none
          else none
        else
          match t1 with
          | [] => none
          | b2 :: t2 =>
            if b0 < 0xF0 then
              if IsCont b1 ∧ IsCont b2 then
                if 0x800 ≤ (b0 - 0xE0) * 4096 + (b1 - 0x80) * 64 + (b2 - 0x80) ∧
                   ((b0 - 0xE0) * 4096 + (b1 - 0x80) * 64 + (b2 - 0x80) < 0xD800 ∨
                    0xE000 ≤ (b0 - 0xE0) * 4096 + (b1 - 0x80) * 64 + (b2 - 0x80)) then
                  (utf8Decode t2).map
                    (fun cs => ((b0 - 0xE0) * 4096 + (b1 - 0x80) * 64 + (b2 - 0x80)) :: cs)
                else none
              else none
            else
              match t2 with
              | [] => none
              | b3 :: t3 =>
                if IsCont b1 ∧ IsCont b2 ∧ IsCont b3 then
                  if 0x10000 ≤ (b0 - 0xF0) * 262144 + (b1 - 0x80) * 4096 +
                        (b2 - 0x80) * 64 + (b3 - 0x80) ∧
                     (b0 - 0xF0) * 262144 + (b1 - 0x80) * 4096 +
                        (b2 - 0x80) * 64 + (b3 - 0x80) < 0x110000 then
                    (utf8Decode t3).map
                      (fun cs => ((b0 - 0xF0) * 262144 + (b1 - 0x80) * 4096 +
                        (b2 - 0x80) * 64 + (b3 - 0x80)) :: cs)
                  else none
                else none

/-- Embedding of `obscure_code(code, seed)` (obsource.py lines 59–66):
UTF-8 encode the text, then replace each byte `b` by `(b + seed) % 256`. -/
def obscure_code (code : List Nat) (seed : Int) : List Nat :=
  (utf8Encode code).map (fun b : Nat => (((b : Int) + seed) % 256).toNat)

/-- Embedding of `deobscure_code(code, seed)` (obsource.py lines 68–74):
replace each byte `b` by `(b - seed) % 256`, then decode as UTF-8;
`none` models the raised `UnicodeDecodeError`. -/
def deobscure_code (code : List Nat) (seed : Int) : Option (List Nat) :=
  utf8Decode (code.map (fun b : Nat => (((b : Int) - seed) % 256).toNat))

/-- The two directions selected by the `mode` argument (`'o'`/`'d'`). -/
inductive Mode where
  | o
  | d
  deriving DecidableEq

/-- Index of the last occurrence of `c` in a list (Python `str.rfind`),
`none` when absent. -/
def lastIdx (c : Char) : List Char → Option Nat
  | [] => none
  | a :: t =>
    match lastIdx c t with
    | some i => some (i + 1)
    | none => if a = c then some 0 else none

/-- Embedding of `os.path.splitext` (POSIX): split at the last dot,
provided that dot lies after the last path separator and the base name
has at least one non-dot character before it (leading dots of the base
name never start an extension). -/
def splitext (p : List Char) : List Char × List Char :=
  match lastIdx '.' p with
  | none => (p, [])
  | some dotIdx =>
    let sepStart : Nat :=
      match lastIdx '/' p with
      | some i => i + 1
      | none => 0
    if sepStart ≤ dotIdx ∧
        ((p.drop sepStart).take (dotIdx - sepStart)).any (fun a => a != '.') = true then
      (p.take dotIdx, p.drop dotIdx)
    else (p, [])

/-- The output path computed by `updated_process_file` (lines 101–107):
`base_filename = os.path.splitext(file_path)[0]` followed by the literal
suffix `"_obscure.py"` or `"_deobscure.py"`. -/
def outPath (mode : Mode) (p : List Char) : List Char :=
  (splitext p).1 ++
    (match mode with
     | .o => "_obscure.py".toList
     | .d => "_deobscure.py".toList)

/-- A file system snapshot: association list from path to byte content,
most recent write first. -/
def FS := List (List Char × List Nat)

/-- Content stored at path `p`, if any (`os.path.isfile` / reading). -/
def fsLookup (fs : FS) (p : List Char) : Option (List Nat) :=
  match fs.find? (fun e => e.1 == p) with
  | some e => some e.2
  | none => none

/-- Writing content `c` at path `p` (shadows any previous entry). -/
def fsWrite (fs : FS) (p : List Char) (c : List Nat) : FS :=
  (p, c) :: fs

/-- `os.path.dirname(p)` is non-empty exactly when `p` contains a
separator. -/
def hasDir (p : List Char) : Bool := p.any (fun a => a == '/')

/-- Embedding of `os.path.join(a, b)` (POSIX, two arguments). -/
def pyJoin (a b : List Char) : List Char :=
  if b.head? = some '/' then b
  else if a = [] then b
  else if a.getLast? = some '/' then a ++ b
  else a ++ '/' :: b

/-- Lines 88–89: a path without a directory part is joined onto the
current working directory. -/
def resolvePath (cwd p : List Char) : List Char :=
  if hasDir p then p else pyJoin cwd p

/-- `str.lower()` on the user's prompt reply, restricted to ASCII (only
`'y'` matters for the comparison in the source). -/
def pyLower (s : List Char) : List Char := s.map Char.toLower

/-- Embedding of `updated_process_file(file_path, seed, mode)`
(obsource.py lines 83–127), restricted to its file-system effect. `fs`
is the file-system snapshot, `ans` the user's overwrite-prompt reply.
Mode `'o'` reads in text mode (UTF-8 decode) and writes bytes; mode `'d'`
reads bytes and writes text (UTF-8 encode). Any exception raised by the
transform is caught by the enclosing `try`/`except`, which reports the
error and leaves the file system unchanged; a missing input file or a
declined overwrite likewise returns without writing. -/
def updated_process_file (cwd : List Char) (fs : FS) (ans : List Char)
    (file_path : List Char) (seed : Int) (mode : Mode) : FS :=
  let path := resolvePath cwd file_path
  match fsLookup fs path with
  | none => fs
  | some content =>
    let newPath := outPath mode path
    let newContent? : Option (List Nat) :=
      match mode with
      | .o => (utf8Decode content).map (fun text => obscure_code text seed)
      | .d => (deobscure_code content seed).map utf8Encode
    match newContent? with
    | none => fs
    | some nc =>
      if fsLookup fs newPath ≠ none ∧ pyLower ans ≠ "y".toList then fs
      else fsWrite fs newPath nc

/-- Is `c` an ASCII whitespace character (stripped by CPython `int`)? -/
def isPySpace (c : Char) : Bool :=
  c == ' ' || c == '\t' || c == '\n' || c == '\r' ||
    c == (Char.ofNat 11) || c == (Char.ofNat 12)

/-- Is `c` an ASCII decimal digit? -/
def isDigitC (c : Char) : Bool := '0' ≤ c && c ≤ '9'

/-- Numeric value of an ASCII digit. -/
def digitVal (c : Char) : Nat := c.toNat - 48

/-- Digit tail of a CPython integer literal: decimal digits with single
underscores allowed between digits. -/
def pyDigits (acc : Nat) : List Char → Option Nat
  | [] => some acc
  | '_' :: c :: rest =>
    if isDigitC c then pyDigits (acc * 10 + digitVal c) rest else none
  | ['_'] => none
  | c :: rest =>
    if isDigitC c then pyDigits (acc * 10 + digitVal c) rest else none

/-- Embedding of CPython `int(str)` on ASCII input: optional surrounding
whitespace, an optional sign, then decimal digits with single underscores
allowed between digits (so `" 1234 "`, `"+1234"`, `"01234"`, `"1_234"`
all parse); `none` models the raised `ValueError`. -/
def pyIntParse (s : List Char) : Option Int :=
  match (((s.dropWhile isPySpace).reverse.dropWhile isPySpace).reverse) with
  | '+' :: c :: rest =>
    if isDigitC c then (pyDigits (digitVal c) rest).map (fun n => (n : Int)) else none
  | '-' :: c :: rest =>
    if isDigitC c then (pyDigits (digitVal c) rest).map (fun n => -(n : Int)) else none
  | c :: rest =>
    if isDigitC c then (pyDigits (digitVal c) rest).map (fun n => (n : Int)) else none
  | [] => none

/-- Embedding of main's seed validation (obsource.py lines 172–178):
`seed = int(seed)` followed by the `1000 <= seed <= 9999` range check;
both a parse failure and an out-of-range value raise `ValueError`, which
is caught and rejected (`none`). -/
def mainSeedCheck (seedStr : List Char) : Option Int :=
  match pyIntParse seedStr with
  | some n => if 1000 ≤ n ∧ n ≤ 9999 then some n else none
  | none => none

/-- Embedding of `main` (obsource.py lines 157–180) after input
resolution: the `.py`-extension check, then seed validation, then
processing; a failed check prints an error and returns with the file
system untouched. -/
def mainModel (cwd : List Char) (fs : FS) (ans : List Char) (mode : Mode)
    (file : List Char) (seedStr : List Char) : FS :=
  if ".py".toList.isSuffixOf file then
    match mainSeedCheck seedStr with
    | some seed => updated_process_file cwd fs ans file seed mode
    | none => fs
  else fs

example : utf8Encode [104, 105] = [104, 105] := by decide
example : utf8Encode [0x20AC] = [0xE2, 0x82, 0xAC] := by decide
example : utf8Decode [0xE2, 0x82, 0xAC] = some [0x20AC] := by decide
example : deobscure_code (obscure_code [0x20AC, 104] 1234) 1234 =
    some [0x20AC, 104] := by decide
example : deobscure_code (obscure_code [104] 1234) 1235 = some [103] := by decide
example : deobscure_code (obscure_code [0x20AC] 1234) 1235 = some [4203] := by decide
example : deobscure_code [0xFF] 0 = none := by decide
example : deobscure_code [0xED, 0xA0, 0x80] 0 = none := by decide
example : splitext "dir/test.py".toList = ("dir/test".toList, ".py".toList) := by decide
example : splitext ".py".toList = (".py".toList, []) := by decide
example : pyIntParse " +1_234 ".toList = some 1234 := by decide
example : pyIntParse "12a4".toList = none := by decide
example : mainSeedCheck "01234".toList = some 1234 := by decide

/-! ### Helper lemmas about the codec -/

theorem utf8EncodeChar_lt_256 (c : Nat) (h : c < 0x110000) :
    ∀ b ∈ utf8EncodeChar c, b < 256 := by
  intro b hb
  unfold utf8EncodeChar at hb
  split_ifs at hb <;> simp at hb <;> omega

theorem utf8Encode_lt_256 (P : List Nat) (h : ∀ c ∈ P, IsScalar c) :
    ∀ b ∈ utf8Encode P, b < 256 := by
  intro b hb
  unfold utf8Encode at hb
  rw [List.mem_flatMap] at hb
  obtain ⟨c, hcP, hbc⟩ := hb
  exact utf8EncodeChar_lt_256 c (h c hcP).1 b hbc

theorem utf8Decode_cons1 (b0 : Nat) (t : List Nat) (h : b0 < 0x80) :
    utf8Decode (b0 :: t) = (utf8Decode t).map (fun cs => b0 :: cs) := by
  rw [utf8Decode.eq_def]
  dsimp only
  rw [if_pos h]

theorem utf8Decode_cons2 (b0 b1 : Nat) (t : List Nat) (h0 : 0xC0 ≤ b0)
    (h1 : b0 < 0xE0) :
    utf8Decode (b0 :: b1 :: t) =
      if IsCont b1 then
        if 0x80 ≤ (b0 - 0xC0) * 64 + (b1 - 0x80) then
          (utf8Decode t).map (fun cs => ((b0 - 0xC0) * 64 + (b1 - 0x80)) :: cs)
        else none
      else none := by
  rw [utf8Decode.eq_def]
  dsimp only
  rw [if_neg (by omega), if_neg (by omega), if_pos h1]

theorem utf8Decode_cons3 (b0 b1 b2 : Nat) (t : List Nat) (h0 : 0xE0 ≤ b0)
    (h1 : b0 < 0xF0) :
    utf8Decode (b0 :: b1 :: b2 :: t) =
      if IsCont b1 ∧ IsCont b2 then
        if 0x800 ≤ (b0 - 0xE0) * 4096 + (b1 - 0x80) * 64 + (b2 - 0x80) ∧
            ((b0 - 0xE0) * 4096 + (b1 - 0x80) * 64 + (b2 - 0x80) < 0xD800 ∨
             0xE000 ≤ (b0 - 0xE0) * 4096 + (b1 - 0x80) * 64 + (b2 - 0x80)) then
          (utf8Decode t).map
            (fun cs => ((b0 - 0xE0) * 4096 + (b1 - 0x80) * 64 + (b2 - 0x80)) :: cs)
        else none
      else none := by
  rw [utf8Decode.eq_def]
  dsimp only
  rw [if_neg (by omega), if_neg (by omega), if_neg (by omega), if_pos h1]

theorem utf8Decode_cons4 (b0 b1 b2 b3 : Nat) (t : List Nat) (h0 : 0xF0 ≤ b0) :
    utf8Decode (b0 :: b1 :: b2 :: b3 :: t) =
      if IsCont b1 ∧ IsCont b2 ∧ IsCont b3 then
        if 0x10000 ≤ (b0 - 0xF0) * 262144 + (b1 - 0x80) * 4096 +
              (b2 - 0x80) * 64 + (b3 - 0x80) ∧
            (b0 - 0xF0) * 262144 + (b1 - 0x80) * 4096 +
              (b2 - 0x80) * 64 + (b3 - 0x80) < 0x110000 then
          (utf8Decode t).map
            (fun cs => ((b0 - 0xF0) * 262144 + (b1 - 0x80) * 4096 +
              (b2 - 0x80) * 64 + (b3 - 0x80)) :: cs)
        else none
      else none := by
  rw [utf8Decode.eq_def]
  dsimp only
  rw [if_neg (by omega), if_neg (by omega), if_neg (by omega), if_neg (by omega)]

theorem utf8Decode_encodeChar_append (c : Nat) (hc : IsScalar c) (rest : List Nat) :
    utf8Decode (utf8EncodeChar c ++ rest) =
      (utf8Decode rest).map (fun cs => c :: cs) := by
  obtain ⟨h1, h2⟩ := hc
  by_cases ha : c < 0x80
  · unfold utf8EncodeChar
    rw [if_pos ha]
    simp only [List.cons_append, List.nil_append]
    rw [utf8Decode_cons1 c rest ha]
  · by_cases hb : c < 0x800
    · unfold utf8EncodeChar
      rw [if_neg ha, if_pos hb]
      simp only [List.cons_append, List.nil_append]
      rw [utf8Decode_cons2 _ _ _ (by omega) (by omega)]
      rw [if_pos (show IsCont (0x80 + c % 64) from ⟨by omega, by omega⟩)]
      have hv : (0xC0 + c / 64 - 0xC0) * 64 + (0x80 + c % 64 - 0x80) = c := by omega
      rw [hv]
      rw [if_pos (by omega)]
    · by_cases hd : c < 0x10000
      · unfold utf8EncodeChar
        rw [if_neg ha, if_neg hb, if_pos hd]
        simp only [List.cons_append, List.nil_append]
        rw [utf8Decode_cons3 _ _ _ _ (by omega) (by omega)]
        rw [if_pos (show IsCont (0x80 + c / 64 % 64) ∧ IsCont (0x80 + c % 64) from
          ⟨⟨by omega, by omega⟩, by omega, by omega⟩)]
        have hv : (0xE0 + c / 4096 - 0xE0) * 4096 + (0x80 + c / 64 % 64 - 0x80) * 64 +
            (0x80 + c % 64 - 0x80) = c := by omega
        rw [hv]
        rw [if_pos (⟨by omega, h2⟩ : 0x800 ≤ c ∧ (c < 0xD800 ∨ 0xE000 ≤ c))]
      · unfold utf8EncodeChar
        rw [if_neg ha, if_neg hb, if_neg hd]
        simp only [List.cons_append, List.nil_append]
        rw [utf8Decode_cons4 _ _ _ _ _ (by omega)]
        rw [if_pos (show IsCont (0x80 + c / 4096 % 64) ∧ IsCont (0x80 + c / 64 % 64) ∧
            IsCont (0x80 + c % 64) from
          ⟨⟨by omega, by omega⟩, ⟨by omega, by omega⟩, by omega, by omega⟩)]
        have hv : (0xF0 + c / 262144 - 0xF0) * 262144 + (0x80 + c / 4096 % 64 - 0x80) * 4096 +
            (0x80 + c / 64 % 64 - 0x80) * 64 + (0x80 + c % 64 - 0x80) = c := by omega
        rw [hv]
        rw [if_pos (⟨by omega, h1⟩ : 0x10000 ≤ c ∧ c < 0x110000)]

theorem utf8Decode_utf8Encode (s : List Nat) (h : ∀ c ∈ s, IsScalar c) :
    utf8Decode (utf8Encode s) = some s := by
  induction s with
  | nil => rfl
  | cons c t ih =>
    have hc : IsScalar c := h c (List.mem_cons_self c t)
    have ht : ∀ x ∈ t, IsScalar x := fun x hx => h x (List.mem_cons_of_mem c hx)
    show utf8Decode ((c :: t).flatMap utf8EncodeChar) = some (c :: t)
    rw [List.flatMap_cons]
    rw [utf8Decode_encodeChar_append c hc]
    rw [show t.flatMap utf8EncodeChar = utf8Encode t from rfl, ih ht]
    rfl

theorem map_eq_self_of_mem {α : Type} {f : α → α} {l : List α}
    (h : ∀ x ∈ l, f x = x) : l.map f = l := by
  induction l with
  | nil => rfl
  | cons a t ih =>
    rw [List.map_cons, h a (List.mem_cons_self a t),
      ih (fun x hx => h x (List.mem_cons_of_mem a hx))]

theorem deobscure_obscure (P : List Nat) (s : Int) (h : ∀ c ∈ P, IsScalar c) :
    deobscure_code (obscure_code P s) s = some P := by
  unfold deobscure_code obscure_code
  rw [List.map_map]
  have hbytes := utf8Encode_lt_256 P h
  have hmap : (utf8Encode P).map
      ((fun b : Nat => (((b : Int) - s) % 256).toNat) ∘ fun b : Nat => (((b : Int) + s) % 256).toNat) =
      utf8Encode P := by
    apply map_eq_self_of_mem
    intro x hx
    have := hbytes x hx
    simp only [Function.comp_apply]
    omega
  rw [hmap]
  exact utf8Decode_utf8Encode P h

/-! ### Claims about the codec -/

/-- C1: for every text `P` (empty, ASCII, or multi-byte Unicode) and
every seed `s` in [1000, 9999], `deobscure_code (obscure_code P s) s`
returns `P` exactly. -/
theorem c1_round_trip (P : List Nat) (s : Int) (hP : ∀ c ∈ P, IsScalar c)
    (hs1 : 1000 ≤ s) (hs2 : s ≤ 9999) :
    deobscure_code (obscure_code P s) s = some P :=
  deobscure_obscure P s hP

theorem c1_round_trip_witness :
    (∀ c ∈ [0x20AC, 104, 0x1F600], IsScalar c) ∧
      (1000 ≤ (1234 : Int) ∧ (1234 : Int) ≤ 9999) ∧
      deobscure_code (obscure_code [0x20AC, 104, 0x1F600] 1234) 1234 =
        some [0x20AC, 104, 0x1F600] :=
  ⟨by decide, ⟨by decide, by decide⟩,
    c1_round_trip [0x20AC, 104, 0x1F600] 1234 (by decide) (by decide) (by decide)⟩

/-- C2: `obscure_code P s` is the UTF-8 encoding of `P` with each byte
`b` replaced by `(b + s) % 256`; every output byte is at most 255, the
output length equals the UTF-8 byte-length of `P`, and the empty text
yields the empty byte sequence. -/
theorem c2_obscure_algorithm (P : List Nat) (s : Int) :
    obscure_code P s =
      (utf8Encode P).map (fun b : Nat => (((b : Int) + s) % 256).toNat) ∧
    (∀ b ∈ obscure_code P s, b ≤ 255) ∧
    (obscure_code P s).length = (utf8Encode P).length ∧
    obscure_code [] s = [] := by
  refine ⟨rfl, ?_, ?_, rfl⟩
  · intro b hb
    unfold obscure_code at hb
    rw [List.mem_map] at hb
    obtain ⟨a, _, rfl⟩ := hb
    omega
  · unfold obscure_code
    rw [List.length_map]

theorem c2_obscure_algorithm_witness :
    obscure_code [104, 0x20AC] 1234 =
      (utf8Encode [104, 0x20AC]).map (fun b : Nat => (((b : Int) + 1234) % 256).toNat) :=
  (c2_obscure_algorithm [104, 0x20AC] 1234).1

/-- C3: `deobscure_code C s` computes `(b - s) % 256` for each byte with
a Euclidean modulo whose value always lies in [0, 255] (also for seeds
above 255 and negative differences), then UTF-8-decodes the result. -/
theorem c3_deobscure_euclidean_mod (C : List Nat) (s : Int) :
    deobscure_code C s =
      utf8Decode (C.map (fun b : Nat => (((b : Int) - s) % 256).toNat)) ∧
    ∀ b ∈ C, 0 ≤ ((b : Int) - s) % 256 ∧ ((b : Int) - s) % 256 ≤ 255 := by
  refine ⟨rfl, ?_⟩
  intro b _
  omega

theorem c3_deobscure_euclidean_mod_witness :
    0 ≤ ((0 : Int) - 9999) % 256 ∧ ((0 : Int) - 9999) % 256 ≤ 255 :=
  (c3_deobscure_euclidean_mod [0] 9999).2 0 (by decide)

/-- C4: `deobscure_code C s` fails exactly when the sequence obtained by
shifting each byte of `C` down by `s % 256` is not valid UTF-8, and
returns the decoded text when that sequence is valid. -/
theorem c4_raises_iff_invalid (C : List Nat) (s : Int) :
    (deobscure_code C s = none ↔
      utf8Decode (C.map (fun b : Nat => (((b : Int) - s % 256) % 256).toNat)) = none) ∧
    ∀ t, utf8Decode (C.map (fun b : Nat => (((b : Int) - s % 256) % 256).toNat)) = some t →
      deobscure_code C s = some t := by
  have hmap : C.map (fun b : Nat => (((b : Int) - s % 256) % 256).toNat) =
      C.map (fun b : Nat => (((b : Int) - s) % 256).toNat) :=
    List.map_congr_left (fun b _ => by omega)
  rw [hmap]
  unfold deobscure_code
  exact ⟨Iff.rfl, fun t ht => ht⟩

theorem c4_raises_iff_invalid_witness :
    deobscure_code [58] 1234 = some [104] :=
  (c4_raises_iff_invalid [58] 1234).2 [104] (by decide)

/-- C5: the transform depends only on `s % 256`: adding 256 to the seed
leaves the obscured output unchanged. -/
theorem c5_seed_congruence (P : List Nat) (s : Int) :
    obscure_code P s = obscure_code P (s + 256) := by
  unfold obscure_code
  exact List.map_congr_left (fun b _ => by omega)

/-- C9: the codec functions are deterministic: identical `(content,
seed)` inputs give identical results, the output depending on nothing
else. -/
theorem c9_deterministic (P₁ P₂ C₁ C₂ : List Nat) (s₁ s₂ u₁ u₂ : Int)
    (hP : P₁ = P₂) (hs : s₁ = s₂) (hC : C₁ = C₂) (hu : u₁ = u₂) :
    obscure_code P₁ s₁ = obscure_code P₂ s₂ ∧
      deobscure_code C₁ u₁ = deobscure_code C₂ u₂ := by
  subst hP; subst hs; subst hC; subst hu
  exact ⟨rfl, rfl⟩

theorem c9_deterministic_witness :
    obscure_code [104] 1234 = obscure_code [104] 1234 ∧
      deobscure_code [58] 1234 = deobscure_code [58] 1234 :=
  c9_deterministic [104] [104] [58] [58] 1234 1234 1234 1234 rfl rfl rfl rfl

/-- C10: a seed divisible by 256 (e.g. the accepted four-digit seeds
1024, 1280, …, 9984) makes `obscure_code` the identity on the UTF-8
encoding, and the round trip trivially returns `P`: no obfuscation at
all. -/
theorem c10_identity_seed (P : List Nat) (s : Int) (hP : ∀ c ∈ P, IsScalar c)
    (hs : s % 256 = 0) :
    obscure_code P s = utf8Encode P ∧
      deobscure_code (obscure_code P s) s = some P := by
  constructor
  · unfold obscure_code
    apply map_eq_self_of_mem
    intro b hb
    have := utf8Encode_lt_256 P hP b hb
    omega
  · exact deobscure_obscure P s hP

theorem c10_identity_seed_witness :
    ((1024 : Int) % 256 = 0) ∧
      obscure_code [104, 0x20AC] 1024 = utf8Encode [104, 0x20AC] ∧
      deobscure_code (obscure_code [104, 0x20AC] 1024) 1024 = some [104, 0x20AC] :=
  ⟨by decide,
    (c10_identity_seed [104, 0x20AC] 1024 (by decide) (by decide)).1,
    (c10_identity_seed [104, 0x20AC] 1024 (by decide) (by decide)).2⟩

/-! ### Claims about the boundary layer -/

theorem lastIdx_append_some (c : Char) (q r : List Char) (i : Nat)
    (h : lastIdx c r = some i) : lastIdx c (q ++ r) = some (q.length + i) := by
  induction q with
  | nil => simpa using h
  | cons a t ih =>
    simp only [List.cons_append, lastIdx, List.append_eq]
    rw [ih]
    simp only [List.length_cons]
    exact congrArg some (by omega)

theorem splitext_append_py (q : List Char) :
    splitext (q ++ ".py".toList) = (q, ".py".toList) ∨
    splitext (q ++ ".py".toList) = (q ++ ".py".toList, []) := by
  have hdot : lastIdx '.' (q ++ ".py".toList) = some q.length := by
    have h0 : lastIdx '.' (".py".toList) = some 0 := by decide
    simpa using lastIdx_append_some '.' q (".py".toList) 0 h0
  unfold splitext
  rw [hdot]
  dsimp only
  split_ifs with h
  · left
    rw [List.take_left, List.drop_left]
  · right
    rfl

/-- C7: for a processed input path of the form `name.ext` (main only
processes paths with the `.py` suffix, and `ext` non-empty per
`os.path.splitext`), Obscure writes to `name_obscure.ext` and Deobscure
writes to `name_deobscure.ext`: the extension is preserved. -/
theorem c7_output_naming (p : List Char)
    (hpy : (".py".toList).isSuffixOf p = true)
    (hext : (splitext p).2 ≠ []) :
    outPath Mode.o p = (splitext p).1 ++ "_obscure".toList ++ (splitext p).2 ∧
    outPath Mode.d p = (splitext p).1 ++ "_deobscure".toList ++ (splitext p).2 := by
  obtain ⟨q, rfl⟩ : ∃ q, p = q ++ ".py".toList := by
    obtain ⟨q, hq⟩ := List.isSuffixOf_iff_suffix.mp hpy
    exact ⟨q, hq.symm⟩
  rcases splitext_append_py q with h | h
  · have ho : outPath Mode.o (q ++ ".py".toList) =
        (splitext (q ++ ".py".toList)).1 ++ "_obscure.py".toList := rfl
    have hd2 : outPath Mode.d (q ++ ".py".toList) =
        (splitext (q ++ ".py".toList)).1 ++ "_deobscure.py".toList := rfl
    rw [ho, hd2, h]
    dsimp only
    constructor
    · rw [List.append_assoc]
      exact congrArg (fun l => q ++ l) (by decide)
    · rw [List.append_assoc]
      exact congrArg (fun l => q ++ l) (by decide)
  · rw [h] at hext
    exact absurd rfl hext

theorem c7_output_naming_witness :
    ((".py".toList).isSuffixOf "test.py".toList = true) ∧
      ((splitext "test.py".toList).2 ≠ []) ∧
      outPath Mode.o "test.py".toList =
        (splitext "test.py".toList).1 ++ "_obscure".toList ++
          (splitext "test.py".toList).2 :=
  ⟨by decide, by decide,
    (c7_output_naming ("test.py".toList) (by decide) (by decide)).1⟩

/-- C8: when the computed output path already exists and the user's
overwrite reply is not `y`, `updated_process_file` performs no write and
leaves the file system exactly as it was. -/
theorem c8_decline_no_write (cwd : List Char) (fs : FS) (ans : List Char)
    (file_path : List Char) (seed : Int) (mode : Mode)
    (hex : fsLookup fs (outPath mode (resolvePath cwd file_path)) ≠ none)
    (hans : pyLower ans ≠ "y".toList) :
    updated_process_file cwd fs ans file_path seed mode = fs := by
  unfold updated_process_file
  dsimp only
  cases h : fsLookup fs (resolvePath cwd file_path) with
  | none => rfl
  | some content =>
    dsimp only
    cases hnc : (match mode with
      | Mode.o => (utf8Decode content).map (fun text => obscure_code text seed)
      | Mode.d => (deobscure_code content seed).map utf8Encode) with
    | none => rfl
    | some nc =>
      dsimp only
      rw [if_pos ⟨hex, hans⟩]

theorem c8_decline_no_write_witness :
    updated_process_file []
      ([("a_obscure.py".toList, [0]), ("a.py".toList, [104])] : FS)
      ("n".toList) ("a.py".toList) 1234 Mode.o =
      ([("a_obscure.py".toList, [0]), ("a.py".toList, [104])] : FS) :=
  c8_decline_no_write [] ([("a_obscure.py".toList, [0]), ("a.py".toList, [104])] : FS)
    ("n".toList) ("a.py".toList) 1234 Mode.o (by decide) (by decide)

/-- C6 counterexample: the seed input string `"01234"` is five
characters long — not exactly four decimal digits — yet main's
validation accepts it (Python `int("01234")` is `1234`, in range). -/
theorem c6_counterexample :
    mainSeedCheck ("01234".toList) = some 1234 ∧
      ("01234".toList).length ≠ 4 := by
  constructor
  · decide
  · decide

/-- C6 (amended): main accepts a seed input string iff it parses as a
Python integer (optional surrounding whitespace, an optional sign,
decimal digits possibly separated by underscores — so not necessarily
exactly four digits) whose value lies in [1000, 9999]; a rejected seed
leaves the file system untouched, the core transform never running. -/
theorem c6_seed_validation (cwd : List Char) (fs : FS) (ans : List Char)
    (mode : Mode) (file : List Char) (seedStr : List Char) :
    (∀ n : Int, mainSeedCheck seedStr = some n ↔
      (pyIntParse seedStr = some n ∧ 1000 ≤ n ∧ n ≤ 9999)) ∧
    (mainSeedCheck seedStr = none →
      mainModel cwd fs ans mode file seedStr = fs) := by
  constructor
  · intro n
    unfold mainSeedCheck
    cases h : pyIntParse seedStr with
    | none => simp
    | some m =>
      dsimp only
      constructor
      · intro hm
        split_ifs at hm with hr
        injection hm with hmn
        subst hmn
        exact ⟨rfl, hr.1, hr.2⟩
      · rintro ⟨hpn, hr1, hr2⟩
        injection hpn with hmn
        subst hmn
        rw [if_pos ⟨hr1, hr2⟩]
  · intro h
    unfold mainModel
    rw [h]
    split_ifs <;> rfl

theorem c6_seed_validation_witness :
    mainSeedCheck ("1234".toList) = some 1234 :=
  ((c6_seed_validation [] ([] : FS) [] Mode.o ("a.py".toList)
    ("1234".toList)).1 1234).mpr ⟨by decide, by decide, by decide⟩

end Obsource
